import Mathlib

/-
Shallow embedding of the tweet-loading pipeline of this repository
(`load_tweets.py` and `load_tweets_batch.py`) and proofs about it.

The two scripts parse newline-delimited JSON tweet objects and insert them
into a normalized Postgres schema.  The embedding models:

  * JSON values (`JValue`) together with the small part of Python's dynamic
    semantics the scripts rely on: subscripting (`d[k]`, raising `KeyError`
    or `TypeError`), iteration, `str()` rendering, truthiness, `.lower()`,
    `.strip()`, `.split()`, `.replace()` and `dict.get`, each raising the
    exception the corresponding Python operation raises (`PyErr`);
  * the helper functions `remove_nulls`, `batch`, `_bulk_insert_sql`,
    `bulk_insert`, `get_id_urls`;
  * the field-extraction logic of `insert_tweet` / `_insert_tweets`
    (geometry, text, country code, state code, place name, entity lists);
  * the database as lists of rows per relation, with `ON CONFLICT DO
    NOTHING` inserts modelled as key-based insert-if-absent, and the whole
    of `insert_tweet` (load_tweets.py) as a state transformer;
  * the statement order of STEP 2 of `_insert_tweets`
    (load_tweets_batch.py).

Numbers are carried by their Python `str()` rendering, since the scripts
only ever compare them and splice them into strings.  Arrays and objects
are encoded with cons-style constructors so that all functions are
structurally recursive and computable by the kernel.
-/

namespace TwitterPG

/-- Python exceptions that the modelled code can raise.  `unboundLocal`
models reading a local variable that no branch assigned
(`UnboundLocalError`). -/
inductive PyErr : Type where
  | typeError
  | keyError
  | indexError
  | attributeError
  | unboundLocal
deriving DecidableEq

/-- A JSON value as manipulated by the scripts.  Arrays and objects are
cons-encoded (`anil`/`acons`, `onil`/`ocons`) so that equality and all
operations are structurally recursive.  `num lit` carries the Python
`str()` rendering of the number, which is all the scripts ever use. -/
inductive JValue : Type where
  | null : JValue
  | bool (b : Bool) : JValue
  | num (lit : String) : JValue
  | str (s : String) : JValue
  | anil : JValue
  | acons (hd tl : JValue) : JValue
  | onil : JValue
  | ocons (key : String) (val tl : JValue) : JValue
deriving DecidableEq

instance {e a : Type} [DecidableEq e] [DecidableEq a] : DecidableEq (Except e a) := fun x y =>
  match x, y with
  | .ok u, .ok v =>
    if h : u = v then .isTrue (by rw [h]) else .isFalse (fun c => h (Except.ok.inj c))
  | .error u, .error v =>
    if h : u = v then .isTrue (by rw [h]) else .isFalse (fun c => h (Except.error.inj c))
  | .ok _, .error _ => .isFalse (fun c => Except.noConfusion c)
  | .error _, .ok _ => .isFalse (fun c => Except.noConfusion c)

/-- Build an array value from a list. -/
def jarr (l : List JValue) : JValue := l.foldr JValue.acons JValue.anil

/-- Build an object value from key/value pairs (keys assumed distinct, as
in the JSON the scripts read). -/
def jobj (l : List (String × JValue)) : JValue :=
  l.foldr (fun p t => JValue.ocons p.1 p.2 t) JValue.onil

/-- The elements of an array value (empty for non-arrays). -/
def elemsOf : JValue → List JValue
  | .acons h t => h :: elemsOf t
  | _ => []

/-- The keys of an object value. -/
def okeys : JValue → List JValue
  | .ocons k _ t => .str k :: okeys t
  | _ => []

/-- Python subscripting `v[key]` with a string key: objects are looked up
(`KeyError` when absent), `None` and every non-object raise `TypeError`
(for arrays and scalars a string subscript is a `TypeError` in Python). -/
def getItem : JValue → String → Except PyErr JValue
  | .ocons k v t, key => if k = key then .ok v else getItem t key
  | .onil, _ => .error .keyError
  | _, _ => .error .typeError

/-- Python subscripting `v[i]` with a non-negative integer index: arrays
and strings index (`IndexError` out of range), objects raise `KeyError`
(an integer is not among the string keys), `None` and scalars raise
`TypeError`. -/
def getIdx (v : JValue) (i : Nat) : Except PyErr JValue :=
  match v with
  | .anil | .acons _ _ =>
    match (elemsOf v)[i]? with
    | some x => .ok x
    | none => .error .indexError
  | .str s =>
    match s.data[i]? with
    | some c => .ok (.str (String.mk [c]))
    | none => .error .indexError
  | .onil | .ocons _ _ _ => .error .keyError
  | .null | .num _ | .bool _ => .error .typeError

/-- Python iteration over a value: arrays yield their elements, strings
their characters, objects their keys; `None` and scalars raise
`TypeError`. -/
def pyIter : JValue → Except PyErr (List JValue)
  | .anil => .ok []
  | .acons h t => .ok (h :: elemsOf t)
  | .str s => .ok (s.data.map (fun c => .str (String.mk [c])))
  | .onil => .ok []
  | .ocons k _ t => .ok (.str k :: okeys t)
  | .null | .num _ | .bool _ => .error .typeError

/-- Python `dict.get(key, default)`; calling `.get` on a non-dict raises
`AttributeError`. -/
def dictGetD : JValue → String → JValue → Except PyErr JValue
  | .onil, _, d => .ok d
  | .ocons k v t, key, d => if k = key then .ok v else dictGetD t key d
  | _, _, _ => .error .attributeError

/-- Rendering mode for `pyRender`: a value by itself (`str()`), a value
inside a container (`repr()`), or the tail of a container. -/
inductive RMode : Type where
  | plain
  | quoted
  | inner

/-- Python `str()` / `repr()` rendering of a value, enough for the uses in
the scripts (scalars spliced into geometry text; containers rendered with
brackets and comma-separated elements). -/
def pyRender : RMode → JValue → String
  | _, .null => "None"
  | _, .bool true => "True"
  | _, .bool false => "False"
  | _, .num l => l
  | .plain, .str s => s
  | _, .str s => "\x27" ++ s ++ "\x27"
  | .inner, .anil => ""
  | _, .anil => "[]"
  | .inner, .acons h t => ", " ++ pyRender .quoted h ++ pyRender .inner t
  | _, .acons h t => "[" ++ pyRender .quoted h ++ pyRender .inner t ++ "]"
  | .inner, .onil => ""
  | _, .onil => "\x7b\x7d"
  | .inner, .ocons k v t => ", \x27" ++ k ++ "\x27: " ++ pyRender .quoted v ++ pyRender .inner t
  | _, .ocons k v t => "\x7b\x27" ++ k ++ "\x27: " ++ pyRender .quoted v ++ pyRender .inner t ++ "\x7d"

/-- Python `str(v)`. -/
def pyStr (v : JValue) : String := pyRender .plain v

/-- Python truthiness `bool(v)`: `None` and empty containers are falsy,
numbers are falsy exactly when zero, strings when empty. -/
def truthy : JValue → Bool
  | .null => false
  | .bool b => b
  | .num l => !(l = "0" || l = "0.0" || l = "-0.0")
  | .str s => !(s = "")
  | .anil => false
  | .acons _ _ => true
  | .onil => false
  | .ocons _ _ _ => true

/-- Python `s.lower()` (ASCII case, which covers the country and state
codes the scripts lower-case). -/
def pyLowerS (s : String) : String := String.mk (s.data.map Char.toLower)

/-- Lower-casing on character lists. -/
def pyLowerL (l : List Char) : List Char := l.map Char.toLower

/-- Python `s.strip()`: drop whitespace from both ends. -/
def pyStripL (l : List Char) : List Char :=
  ((l.dropWhile Char.isWhitespace).reverse.dropWhile Char.isWhitespace).reverse

/-- Python `s.split(sep)` for a one-character separator: `''.split(',')`
is `['']`, separators at the ends produce empty segments. -/
def pySplitL (sep : Char) : List Char → List (List Char)
  | [] => [[]]
  | c :: cs =>
    if c = sep then [] :: pySplitL sep cs
    else
      match pySplitL sep cs with
      | [] => [[c]]
      | g :: gs => (c :: g) :: gs

/-- The characters that replace one null character in `remove_nulls`:
the text `\x00` (backslash, x, 0, 0). -/
def nullEscape : List Char := ['\\', 'x', '0', '0']

/-- Character-list core of `remove_nulls` (load_tweets.py lines 29-51 and
load_tweets_batch.py lines 16-38): `s.replace('\x00', '\\x00')`, i.e.
every null character is replaced by the four-character escape sequence. -/
def removeNullsL : List Char → List Char
  | [] => []
  | c :: cs =>
    if c = '\x00' then nullEscape ++ removeNullsL cs
    else c :: removeNullsL cs

/-- `remove_nulls` on strings. -/
def removeNullsS (s : String) : String := String.mk (removeNullsL s.data)

/-- `remove_nulls(s)` as in the source: `None` maps to `None`, strings are
rewritten, and any other value raises (`.replace` on a non-string is an
`AttributeError`). -/
def remove_nulls : JValue → Except PyErr JValue
  | .null => .ok .null
  | .str s => .ok (.str (removeNullsS s))
  | _ => .error .attributeError

/-- Fuel-driven core of `batch` (load_tweets_batch.py lines 68-83): take
`n` elements, recurse on the rest.  The fuel only bounds the recursion
depth; `pyBatch` supplies `xs.length`, which is always enough for a
positive step. -/
def pyBatchF {α : Type} : Nat → List α → Nat → List (List α)
  | 0, _, _ => []
  | _ + 1, [], _ => []
  | f + 1, x :: xs, n => ((x :: xs).take n) :: pyBatchF f ((x :: xs).drop n) n

/-- The `batch` generator of load_tweets_batch.py: successive slices
`iterable[ndx:ndx+n]` for `ndx = 0, n, 2n, ...`.  Python raises
`ValueError` for step `0`; the model is only used with positive `n`, as
the claims are. -/
def pyBatch {α : Type} (xs : List α) (n : Nat) : List (List α) := pyBatchF xs.length xs n

/-- Python `sep.join(parts)`. -/
def pyJoin (sep : String) : List String → String
  | [] => ""
  | [x] => x
  | x :: y :: xs => x ++ sep ++ pyJoin sep (y :: xs)

/-- A row draft: a Python dict in insertion order, as built by the
scripts. -/
abbrev Row := List (String × JValue)

/-- The keys of a row draft in insertion order (`row.keys()`). -/
def rowKeys (r : Row) : List String := r.map Prod.fst

/-- Dict lookup on a row draft. -/
def rowGet (r : Row) (k : String) : Option JValue :=
  (r.find? (fun p => p.1 == k)).map Prod.snd

/-- Python `set(a) == set(b)` on key lists. -/
def keySetEq (a b : List String) : Bool :=
  a.all (fun k => b.contains k) && b.all (fun k => a.contains k)

/-- The two `ValueError`s `_bulk_insert_sql` can raise. -/
inductive BulkErr : Type where
  | emptyRows
  | keyMismatch
deriving DecidableEq

/-- A CPython set-iteration order of a set of strings: some duplicate-free
enumeration of exactly the elements.  CPython guarantees nothing beyond
this (the order depends on the per-process string hash seed), so
`_bulk_insert_sql` is modelled as parameterized by the enumeration the
interpreter happens to use for `set(rows[0].keys())`. -/
def ValidEnum (enum : List String → List String) : Prop :=
  ∀ ks : List String, (enum ks).Nodup ∧ ∀ k, k ∈ enum ks ↔ k ∈ ks

/-- One admissible set-iteration order: first occurrences in insertion
order. -/
def enumKeys (ks : List String) : List String := ks.dedup

/-- Another admissible set-iteration order: first occurrences reversed. -/
def enumKeysRev (ks : List String) : List String := ks.dedup.reverse

/-- `_bulk_insert_sql(table, rows)` (load_tweets_batch.py lines 86-143):
raises on an empty row list, raises when some row's key set differs from
the first row's, and otherwise returns the whitespace-normalized SQL text
together with the row-indexed bind pairs.  `enum` is the set-iteration
order used for `keys = set(rows[0].keys())`. -/
def bulk_insert_sql (enum : List String → List String) (table : String)
    (rows : List Row) : Except BulkErr (String × List (String × JValue)) :=
  match rows with
  | [] => .error .emptyRows
  | r0 :: _ =>
    if rows.all (fun r => keySetEq (rowKeys r) (rowKeys r0)) then
      let keys := enum (rowKeys r0)
      let sql := "INSERT INTO " ++ table ++ " (" ++ pyJoin "," keys ++ ") VALUES "
        ++ pyJoin "," ((List.range rows.length).map (fun i =>
             "(" ++ pyJoin "," (keys.map (fun k => ":" ++ k ++ toString i)) ++ ")"))
        ++ " ON CONFLICT DO NOTHING"
      let binds := rows.enum.flatMap (fun p => p.2.map (fun q => (q.1 ++ toString p.1, q.2)))
      .ok (sql, binds)
    else .error .keyMismatch

/-- `bulk_insert(connection, table, rows)` (load_tweets_batch.py lines
146-156) over an abstract database state `σ`: an empty row list returns
immediately, executing nothing; otherwise the generated statement is
executed once.  The result pairs the new state with the list of executed
statements. -/
def bulk_insert {σ : Type} (enum : List String → List String)
    (exec : String → List (String × JValue) → σ → σ) (db : σ)
    (table : String) (rows : List Row) :
    Except BulkErr (σ × List (String × List (String × JValue))) :=
  if rows.length = 0 then .ok (db, [])
  else
    match bulk_insert_sql enum table rows with
    | .error e => .error e
    | .ok (sql, binds) => .ok (exec sql binds db, [(sql, binds)])

/-- Concatenation of a list of strings, as successive `+=` appends. -/
def strConcat : List String → String
  | [] => ""
  | s :: t => s ++ strConcat t

/-- Sequential effectful map over `Except`, stopping at the first raised
exception, as a Python `for` loop that appends per element does. -/
def mapME {α β : Type} (f : α → Except PyErr β) : List α → Except PyErr (List β)
  | [] => .ok []
  | a :: t => do
    let b ← f a
    let bs ← mapME f t
    .ok (b :: bs)

/-- The POINT branch of the geometry extraction (load_tweets.py lines
170-173, identical in load_tweets_batch.py lines 236-239):
`tweet['geo']['coordinates']` followed by
`str(tweet['geo']['coordinates'][0]) + ' ' + str(...[1])`.  The source
subscripts `tweet['geo']['coordinates']` three times; the results and the
raised exceptions are the same, so the lookups are shared here. -/
def tryPoint (tweet : JValue) : Except PyErr (String × String) := do
  let g ← getItem tweet "geo"
  let c ← getItem g "coordinates"
  let x ← getIdx c 0
  let y ← getIdx c 1
  .ok ("POINT", pyStr x ++ " " ++ pyStr y)

/-- One ring of the MULTIPOLYGON branch (the inner `for j,point in
enumerate(poly)` loop): every point as `str(point[0]) + ' ' + str(point[1])
+ ','`, then the first point repeated, in parentheses. -/
def ringEncode (poly : JValue) : Except PyErr String := do
  let pts ← pyIter poly
  let parts ← mapME (fun p => do
      let a ← getIdx p 0
      let b ← getIdx p 1
      .ok (pyStr a ++ " " ++ pyStr b ++ ",")) pts
  let p0 ← getIdx poly 0
  let a0 ← getIdx p0 0
  let b0 ← getIdx p0 1
  .ok ("(" ++ (strConcat parts ++ (pyStr a0 ++ " " ++ pyStr b0)) ++ ")")

/-- The MULTIPOLYGON branch of the geometry extraction (load_tweets.py
lines 175-186): rings of `tweet['place']['bounding_box']['coordinates']`,
comma-joined, wrapped in one more pair of parentheses. -/
def tryPolygon (tweet : JValue) : Except PyErr (String × String) := do
  let place ← getItem tweet "place"
  let bb ← getItem place "bounding_box"
  let coords ← getItem bb "coordinates"
  let polys ← pyIter coords
  let rings ← mapME ringEncode polys
  .ok ("MULTIPOLYGON", "(" ++ pyJoin "," rings ++ ")")

/-- The whole geometry extraction (load_tweets.py lines 170-190,
load_tweets_batch.py lines 236-256): the POINT branch guarded by
`except TypeError`, inside it the MULTIPOLYGON branch guarded by
`except KeyError`, and in that handler `geo_str`/`geo_coords` are set to
`None` only under `if tweet['user']['geo_enabled']:`.  When that test is
falsy no branch assigns `geo_str`, and reading it later raises
`UnboundLocalError`; every other exception propagates. -/
def geoExtract (tweet : JValue) : Except PyErr (Option String × Option String) :=
  match tryPoint tweet with
  | .ok sc => .ok (some sc.1, some sc.2)
  | .error e =>
    if e = .typeError then
      match tryPolygon tweet with
      | .ok sc => .ok (some sc.1, some sc.2)
      | .error e2 =>
        if e2 = .keyError then
          match getItem tweet "user" with
          | .error e3 => .error e3
          | .ok u =>
            match getItem u "geo_enabled" with
            | .error e4 => .error e4
            | .ok ge => if truthy ge then .ok (none, none) else .error .unboundLocal
        else .error e2
    else .error e

/-- The value the SQL computes for the `geo` column:
`ST_GeomFromText(:geo_str || '(' || :geo_coords || ')')`; a SQL `NULL` in
either operand makes the whole expression `NULL`. -/
def geomFromText : Option String × Option String → Option String
  | (some s, some c) => some (s ++ "(" ++ c ++ ")")
  | _ => none

/-- An optional string as the stored column value. -/
def optStrJ : Option String → JValue
  | none => .null
  | some s => .str s

/-- The text extraction (load_tweets.py lines 192-195): prefer
`tweet['extended_tweet']['full_text']`, and on any exception (a bare
`except`) fall back to `tweet['text']`. -/
def textOf (tweet : JValue) : Except PyErr JValue :=
  match (do
      let et ← getItem tweet "extended_tweet"
      getItem et "full_text" : Except PyErr JValue) with
  | .ok v => .ok v
  | .error _ => getItem tweet "text"

/-- The country-code extraction (load_tweets.py lines 197-200):
`tweet['place']['country_code'].lower()` guarded by `except TypeError`
(which a `None` place raises); a missing key raises `KeyError` and a
non-string `country_code` raises `AttributeError`, both uncaught. -/
def countryCodeOf (tweet : JValue) : Except PyErr (Option String) :=
  match (do
      let p ← getItem tweet "place"
      let cc ← getItem p "country_code"
      match cc with
      | .str s => (.ok (pyLowerS s) : Except PyErr String)
      | _ => .error .attributeError) with
  | .ok s => .ok (some s)
  | .error .typeError => .ok none
  | .error e => .error e

/-- Core of the state-code derivation on the place's full name:
`full_name.split(',')[-1].strip().lower()`, then `None` when longer than
two characters (load_tweets.py lines 203-205). -/
def stateCodeCore (full_name : String) : Option String :=
  let seg := String.mk (pyLowerL (pyStripL ((pySplitL ',' full_name.data).getLastD [])))
  if seg.length > 2 then none else some seg

/-- The state-code extraction (load_tweets.py lines 202-207): derived only
when the country code equals `us`, otherwise `None`; `.split` on a
non-string full name raises `AttributeError`. -/
def stateCodeOf (tweet : JValue) (cc : Option String) : Except PyErr (Option String) :=
  if cc = some "us" then do
    let p ← getItem tweet "place"
    let fn ← getItem p "full_name"
    match fn with
    | .str s => .ok (stateCodeCore s)
    | _ => .error .attributeError
  else .ok none

/-- The place-name extraction (load_tweets.py lines 209-212):
`tweet['place']['full_name']` guarded by `except TypeError`. -/
def placeNameOf (tweet : JValue) : Except PyErr JValue :=
  match (do
      let p ← getItem tweet "place"
      getItem p "full_name" : Except PyErr JValue) with
  | .ok v => .ok v
  | .error .typeError => .ok .null
  | .error e => .error e

/-- The standard entity fallback (load_tweets.py lines 267-270, 291-294):
prefer `tweet['extended_tweet']['entities'][field]`, and on `KeyError`
fall back to `tweet['entities'][field]`. -/
def entityListOf (tweet : JValue) (field : String) : Except PyErr JValue :=
  match (do
      let et ← getItem tweet "extended_tweet"
      let en ← getItem et "entities"
      getItem en field : Except PyErr JValue) with
  | .ok v => .ok v
  | .error .keyError => do
    let en ← getItem tweet "entities"
    getItem en field
  | .error e => .error e

/-- The hashtag/cashtag sources (load_tweets.py lines 326-331): both
containers are read inside one `try`, so a `KeyError` on either makes
both fall back to `tweet['entities']`. -/
def tagsSourceOf (tweet : JValue) : Except PyErr (JValue × JValue) :=
  match (do
      let et ← getItem tweet "extended_tweet"
      let en ← getItem et "entities"
      let h ← getItem en "hashtags"
      let c ← getItem en "symbols"
      .ok (h, c) : Except PyErr (JValue × JValue)) with
  | .ok v => .ok v
  | .error .keyError => do
    let en ← getItem tweet "entities"
    let h ← getItem en "hashtags"
    let c ← getItem en "symbols"
    .ok (h, c)
  | .error e => .error e

/-- The tag list (load_tweets.py line 333): `'#'+hashtag['text']` and
`'$'+cashtag['text']`; concatenating a non-string onto the prefix raises
`TypeError`. -/
def tagStrings (hashtags cashtags : JValue) : Except PyErr (List JValue) := do
  let hs ← pyIter hashtags
  let htags ← mapME (fun h => do
      let t ← getItem h "text"
      match t with
      | .str s => (.ok (JValue.str ("#" ++ s)) : Except PyErr JValue)
      | _ => .error .typeError) hs
  let cs ← pyIter cashtags
  let ctags ← mapME (fun c => do
      let t ← getItem c "text"
      match t with
      | .str s => (.ok (JValue.str ("$" ++ s)) : Except PyErr JValue)
      | _ => .error .typeError) cs
  .ok (htags ++ ctags)

/-- The media fallback chain (load_tweets.py lines 352-358): extended
tweet container, then `tweet['extended_entities']['media']`, then the
empty list; only `KeyError` is caught at each step. -/
def mediaOf (tweet : JValue) : Except PyErr JValue :=
  match (do
      let et ← getItem tweet "extended_tweet"
      let ee ← getItem et "extended_entities"
      getItem ee "media" : Except PyErr JValue) with
  | .ok v => .ok v
  | .error .keyError =>
    match (do
        let ee ← getItem tweet "extended_entities"
        getItem ee "media" : Except PyErr JValue) with
    | .ok v => .ok v
    | .error .keyError => .ok (jarr [])
    | .error e => .error e
  | .error e => .error e

/-- The database state: the relations touched by the scripts, each a list
of rows in insertion order.  `urls` carries serial ids next to the stored
url value. -/
structure DB : Type where
  urls : List (Nat × JValue)
  users : List Row
  tweets : List Row
  tweet_urls : List Row
  tweet_mentions : List Row
  tweet_tags : List Row
  tweet_media : List Row
deriving DecidableEq

/-- An `INSERT ... ON CONFLICT DO NOTHING` against the unique key `cols`:
if some existing row agrees with the new row on every key column, the
relation is unchanged, otherwise the row is appended.  The key columns of
`users` and `tweets` (`id_users`, `id_tweets`) are the conflict targets
visible in the source SQL.  Modelled from the spec: the composite keys of
the dependent relations — (post id, url id), (post id, author id),
(post id, tag), (post id, url id, type) — since the SQL schema file is
not part of the two scripts. -/
def insertIfAbsent (cols : List String) (rel : List Row) (row : Row) : List Row :=
  if rel.any (fun r => decide (cols.map (rowGet r) = cols.map (rowGet row))) then rel
  else rel ++ [row]

/-- `get_id_urls(url)` (load_tweets.py lines 54-78): insert-if-absent on
the unique url value, returning the existing serial id when the insert
conflicts and a fresh serial id otherwise. -/
def get_id_urls (db : DB) (u : JValue) : DB × JValue :=
  match db.urls.find? (fun p => decide (p.2 = u)) with
  | some p => (db, .num (toString p.1))
  | none =>
    let id := db.urls.length + 1
    ({ db with urls := db.urls ++ [(id, u)] }, .num (toString id))

/-- The body of `insert_tweet` after the duplicate check (load_tweets.py
lines 108-373), as one state transformer.  Any raised exception aborts
the surrounding transaction, so the error case carries no state. -/
def insert_tweet_body (db0 : DB) (tweet : JValue) : Except PyErr DB := do
  let user ← getItem tweet "user"
  let uurl ← getItem user "url"
  let (db1, user_id_urls) :=
    if uurl = .null then (db0, JValue.null) else get_id_urls db0 uurl
  let uid ← getItem user "id"
  let ucreated ← getItem user "created_at"
  let tcreated ← getItem tweet "created_at"
  let usn ← remove_nulls (← getItem user "screen_name")
  let uname ← remove_nulls (← getItem user "name")
  let uloc ← remove_nulls (← getItem user "location")
  let udesc ← remove_nulls (← getItem user "description")
  let uprot ← getItem user "protected"
  let uverif ← getItem user "verified"
  let ufriends ← getItem user "friends_count"
  let ulisted ← getItem user "listed_count"
  let ufavs ← getItem user "favourites_count"
  let ustatuses ← getItem user "statuses_count"
  let uwithheld ← dictGetD user "withheld_in_countries" .null
  let userRow : Row :=
    [("id_users", uid), ("created_at", ucreated), ("updated_at", tcreated),
     ("screen_name", usn), ("name", uname), ("location", uloc),
     ("id_urls", user_id_urls), ("description", udesc), ("protected", uprot),
     ("verified", uverif), ("friends_count", ufriends), ("listed_count", ulisted),
     ("favourites_count", ufavs), ("statuses_count", ustatuses),
     ("withheld_in_countries", uwithheld)]
  let db2 := { db1 with users := insertIfAbsent ["id_users"] db1.users userRow }
  let geo ← geoExtract tweet
  let textv ← textOf tweet
  let cc ← countryCodeOf tweet
  let sc ← stateCodeOf tweet cc
  let pn ← placeNameOf tweet
  let replyUid ← dictGetD tweet "in_reply_to_user_id" .null
  let db3 ←
    if replyUid ≠ .null then do
      let rsn ← getItem tweet "in_reply_to_screen_name"
      let stubRow : Row := [("id_users", replyUid), ("screen_name", rsn)]
      (.ok { db2 with users := insertIfAbsent ["id_users"] db2.users stubRow } :
        Except PyErr DB)
    else .ok db2
  let inReplyStatus ← dictGetD tweet "in_reply_to_status_id" .null
  let quoted ← dictGetD tweet "quoted_status_id" .null
  let rts ← dictGetD tweet "retweet_count" .null
  let qcount ← dictGetD tweet "quote_count" .null
  let fcount ← dictGetD tweet "favorite_count" .null
  let wcopy ← dictGetD tweet "withheld_copyright" .null
  let wic ← dictGetD tweet "withheld_in_countries" .null
  let lang ← dictGetD tweet "lang" .null
  let textClean ← remove_nulls textv
  let sourcev ← remove_nulls (← dictGetD tweet "source" .null)
  let tid ← getItem tweet "id"
  let tweetRow : Row :=
    [("id_tweets", tid), ("id_users", uid), ("created_at", tcreated),
     ("in_reply_to_status_id", inReplyStatus), ("in_reply_to_user_id", replyUid),
     ("quoted_status_id", quoted), ("geo", optStrJ (geomFromText geo)),
     ("retweet_count", rts), ("quote_count", qcount), ("favorite_count", fcount),
     ("withheld_copyright", wcopy), ("withheld_in_countries", wic),
     ("place_name", pn), ("country_code", optStrJ cc), ("state_code", optStrJ sc),
     ("lang", lang), ("text", textClean), ("source", sourcev)]
  let db4 := { db3 with tweets := insertIfAbsent ["id_tweets"] db3.tweets tweetRow }
  let urlsV ← entityListOf tweet "urls"
  let urlItems ← pyIter urlsV
  let db5 ← urlItems.foldlM (fun db u => do
      let eu ← getItem u "expanded_url"
      let (dbA, idu) := get_id_urls db eu
      let urlRow : Row := [("id_tweets", tid), ("id_urls", idu)]
      (.ok { dbA with tweet_urls := insertIfAbsent ["id_tweets", "id_urls"] dbA.tweet_urls urlRow } :
        Except PyErr DB)) db4
  let mentionsV ← entityListOf tweet "user_mentions"
  let mentionItems ← pyIter mentionsV
  let db6 ← mentionItems.foldlM (fun db m => do
      let mid ← getItem m "id"
      let mname ← remove_nulls (← getItem m "name")
      let msn ← remove_nulls (← getItem m "screen_name")
      let mUserRow : Row := [("id_users", mid), ("name", mname), ("screen_name", msn)]
      let mRow : Row := [("id_tweets", tid), ("id_users", mid)]
      let dbA := { db with users := insertIfAbsent ["id_users"] db.users mUserRow }
      (.ok { dbA with tweet_mentions :=
               insertIfAbsent ["id_tweets", "id_users"] dbA.tweet_mentions mRow } :
        Except PyErr DB)) db5
  let htct ← tagsSourceOf tweet
  let tags ← tagStrings htct.1 htct.2
  let db7 ← tags.foldlM (fun db tg => do
      let tclean ← remove_nulls tg
      let tagRow : Row := [("id_tweets", tid), ("tag", tclean)]
      (.ok { db with tweet_tags := insertIfAbsent ["id_tweets", "tag"] db.tweet_tags tagRow } :
        Except PyErr DB)) db6
  let mediaV ← mediaOf tweet
  let mediaItems ← pyIter mediaV
  let db8 ← mediaItems.foldlM (fun db m => do
      let murl ← getItem m "media_url"
      let (dbA, idu) := get_id_urls db murl
      let mtype ← getItem m "type"
      let mediaRow : Row := [("id_tweets", tid), ("id_urls", idu), ("type", mtype)]
      (.ok { dbA with tweet_media :=
               insertIfAbsent ["id_tweets", "id_urls", "type"] dbA.tweet_media mediaRow } :
        Except PyErr DB)) db7
  .ok db8

/-- `insert_tweet(connection, tweet)` (load_tweets.py lines 85-373): first
the duplicate check `SELECT id_tweets FROM tweets WHERE id_tweets =
tweet['id']` (lines 94-104) — when a row exists the function returns at
once, touching nothing — then the transactional body. -/
def insert_tweet (db : DB) (tweet : JValue) : Except PyErr DB := do
  let tid ← getItem tweet "id"
  if db.tweets.any (fun r => decide (rowGet r "id_tweets" = some tid)) then .ok db
  else insert_tweet_body db tweet

/-- The statements the pure part of one `bulk_insert` call contributes to
a batch: none for an empty row list, one tagged with the relation name
otherwise (load_tweets_batch.py lines 146-156). -/
def bulk_insert_stmts (table : String) (rows : List Row) : List (String × List Row) :=
  if rows.length = 0 then [] else [(table, rows)]

/-- STEP 2 of `_insert_tweets` (load_tweets_batch.py lines 394-425): the
sequence of insert statements one batch executes, in source order — the
three `users` bulk inserts, then `tweet_mentions`, `tweet_tags`,
`tweet_media`, `tweet_urls`, and finally the hand-built `tweets` insert,
which is emitted unconditionally. -/
def step2Statements (users1 users2 users3 mentions tags media urls tweets : List Row) :
    List (String × List Row) :=
  bulk_insert_stmts "users" users1 ++ bulk_insert_stmts "users" users2
    ++ bulk_insert_stmts "users" users3 ++ bulk_insert_stmts "tweet_mentions" mentions
    ++ bulk_insert_stmts "tweet_tags" tags ++ bulk_insert_stmts "tweet_media" media
    ++ bulk_insert_stmts "tweet_urls" urls ++ [("tweets", tweets)]

/-- The relation order of STEP 2 with every draft list non-empty. -/
def step2TableOrder : List String :=
  ["users", "users", "users", "tweet_mentions", "tweet_tags", "tweet_media",
   "tweet_urls", "tweets"]

/-- Spec-side description of "the text after the last comma": the longest
comma-free suffix. -/
def afterLastComma (l : List Char) : List Char :=
  (l.reverse.takeWhile (fun c => decide (c ≠ ','))).reverse

/-- Spec-side state-code rule: the text after the last comma of the full
name, stripped and lower-cased, absent when longer than two characters. -/
def specStateCode (full_name : String) : Option String :=
  let seg := String.mk (pyLowerL (pyStripL (afterLastComma full_name.data)))
  if seg.length > 2 then none else some seg

/-- Spec-side ring encoding: the ring's coordinate pairs in original
order followed by a repeated closing point equal to the first pair, all
comma-joined and parenthesized. -/
def specRing (pts : List (String × String)) : String :=
  "(" ++ pyJoin ","
    (pts.map (fun p => p.1 ++ " " ++ p.2) ++ [(pts.headD ("", "")).1 ++ " " ++ (pts.headD ("", "")).2])
    ++ ")"

/-- A one-column draft row used to exercise the batch writer with every
draft list non-empty. -/
def c1DraftRow : Row := [("id_users", JValue.num "1")]

/-- The statement sequence of one batch in which every draft list is
non-empty. -/
def c1Batch : List (String × List Row) :=
  step2Statements [c1DraftRow] [c1DraftRow] [c1DraftRow] [c1DraftRow] [c1DraftRow]
    [c1DraftRow] [c1DraftRow] [c1DraftRow]

theorem removeNullsL_of_not_mem (l : List Char) (h : '\x00' ∉ l) : removeNullsL l = l := by
  induction l with
  | nil => rfl
  | cons c cs ih =>
    simp only [List.mem_cons, not_or] at h
    rw [removeNullsL, if_neg (fun hh => h.1 hh.symm), ih h.2]

theorem nul_not_mem_removeNullsL (l : List Char) : '\x00' ∉ removeNullsL l := by
  induction l with
  | nil => simp [removeNullsL]
  | cons c cs ih =>
    rw [removeNullsL]
    by_cases hc : c = '\x00'
    · rw [if_pos hc]
      simp only [nullEscape, List.cons_append, List.nil_append, List.mem_cons, not_or]
      exact ⟨by decide, by decide, by decide, by decide, ih⟩
    · rw [if_neg hc]
      simp only [List.mem_cons, not_or]
      exact ⟨fun hh => hc hh.symm, ih⟩

theorem removeNullsL_length (l : List Char) :
    (removeNullsL l).length = l.length + 3 * l.count '\x00' := by
  induction l with
  | nil => rfl
  | cons c cs ih =>
    rw [removeNullsL]
    by_cases hc : c = '\x00'
    · subst hc
      rw [if_pos rfl]
      simp only [nullEscape, List.cons_append, List.nil_append, List.length_cons, ih,
        List.count_cons, beq_self_eq_true, if_true]
      omega
    · rw [if_neg hc]
      have hbe : (c == '\x00') = false := by simpa using hc
      simp [List.count_cons, hbe, ih]
      omega

/-- Claim C6: the null-character sanitizer is total and idempotent on text:
for every string with no null character the output equals the input; for
every string the output contains no null character and every null
occurrence grows the text by the three extra characters of the escape
sequence; sanitizing twice equals sanitizing once; `None` maps to
`None`. -/
theorem c6_remove_nulls_contract :
    (∀ l : List Char, '\x00' ∉ l → removeNullsL l = l) ∧
    (∀ l : List Char, '\x00' ∉ removeNullsL l) ∧
    (∀ l : List Char, removeNullsL (removeNullsL l) = removeNullsL l) ∧
    (∀ l : List Char, (removeNullsL l).length = l.length + 3 * l.count '\x00') ∧
    remove_nulls .null = .ok .null :=
  ⟨removeNullsL_of_not_mem, nul_not_mem_removeNullsL,
    fun l => removeNullsL_of_not_mem _ (nul_not_mem_removeNullsL l),
    removeNullsL_length, rfl⟩

/-- Witness for C6 at a concrete input. -/
theorem c6_witness : ('\x00' ∉ ['h', 'i']) ∧ removeNullsL ['h', 'i'] = ['h', 'i'] :=
  ⟨by decide, c6_remove_nulls_contract.1 ['h', 'i'] (by decide)⟩

/-- Claim C10: for an empty row list the public `bulk_insert` wrapper
returns without raising and without executing any statement, and the
database state is unchanged. -/
theorem c10_bulk_insert_empty_noop {σ : Type} (enum : List String → List String)
    (exec : String → List (String × JValue) → σ → σ) (db : σ) (table : String) :
    bulk_insert enum exec db table [] = .ok (db, []) := rfl

/-- Claim C7: the bulk statement builder fails exactly on malformed input
and before producing any statement: an empty draft list raises the
empty-input error, a key-set mismatch raises the shape-mismatch error,
and every non-empty same-keyed list succeeds. -/
theorem c7_bulk_sql_error_contract :
    (∀ enum table, bulk_insert_sql enum table [] = .error .emptyRows) ∧
    (∀ enum table r rows,
        ((r :: rows).all (fun x => keySetEq (rowKeys x) (rowKeys r))) = false →
        bulk_insert_sql enum table (r :: rows) = .error .keyMismatch) ∧
    (∀ enum table r rows,
        ((r :: rows).all (fun x => keySetEq (rowKeys x) (rowKeys r))) = true →
        ∃ sql binds, bulk_insert_sql enum table (r :: rows) = .ok (sql, binds)) := by
  refine ⟨fun _ _ => rfl, ?_, ?_⟩
  · intro enum table r rows h
    simp [bulk_insert_sql, h]
  · intro enum table r rows h
    cases hres : bulk_insert_sql enum table (r :: rows) with
    | ok out =>
      obtain ⟨s, b⟩ := out
      exact ⟨s, b, rfl⟩
    | error e =>
      simp only [bulk_insert_sql, if_pos h] at hres
      exact Except.noConfusion hres

/-- Witness for C7 at the doctest inputs: a shape mismatch raises, a
well-formed singleton succeeds. -/
theorem c7_witness :
    (([[("message", JValue.str "hello world"), ("id", JValue.num "5")],
       [("id", JValue.num "6")]].all (fun x => keySetEq (rowKeys x)
         (rowKeys [("message", JValue.str "hello world"), ("id", JValue.num "5")]))) = false) ∧
    bulk_insert_sql enumKeys "test"
      [[("message", JValue.str "hello world"), ("id", JValue.num "5")],
       [("id", JValue.num "6")]] = .error .keyMismatch ∧
    (∃ sql binds, bulk_insert_sql enumKeys "test"
      [[("message", JValue.str "hello world"), ("id", JValue.num "5")]] = .ok (sql, binds)) :=
  ⟨by decide,
   c7_bulk_sql_error_contract.2.1 enumKeys "test" _ _ (by decide),
   c7_bulk_sql_error_contract.2.2 enumKeys "test" _ _ (by decide)⟩

/-- Claim C2 (code evaluated at the failing input): the statement text is a
function of the set-iteration order of the first draft's keys, which
CPython randomizes per process.  Both enumerations below are admissible
orders of the key set of the doctest draft; one reproduces the doctest
text with columns in draft key order, the other produces different text
with the columns reversed, so the text is neither in draft key order nor
reproducible across processes — contradicting the function's own
doctests. -/
theorem c2_column_order_hash_dependent :
    ValidEnum enumKeys ∧ ValidEnum enumKeysRev ∧
    bulk_insert_sql enumKeys "test"
        [[("message", JValue.str "hello world"), ("id", JValue.num "5")]] =
      .ok ("INSERT INTO test (message,id) VALUES (:message0,:id0) ON CONFLICT DO NOTHING",
        [("message0", JValue.str "hello world"), ("id0", JValue.num "5")]) ∧
    bulk_insert_sql enumKeysRev "test"
        [[("message", JValue.str "hello world"), ("id", JValue.num "5")]] =
      .ok ("INSERT INTO test (id,message) VALUES (:id0,:message0) ON CONFLICT DO NOTHING",
        [("message0", JValue.str "hello world"), ("id0", JValue.num "5")]) ∧
    bulk_insert_sql enumKeys "test"
        [[("message", JValue.str "hello world"), ("id", JValue.num "5")]] ≠
      bulk_insert_sql enumKeysRev "test"
        [[("message", JValue.str "hello world"), ("id", JValue.num "5")]] := by
  refine ⟨?_, ?_, by decide, by decide, by decide⟩
  · intro ks
    exact ⟨List.nodup_dedup ks, fun k => List.mem_dedup⟩
  · intro ks
    refine ⟨List.nodup_reverse.mpr (List.nodup_dedup ks), fun k => ?_⟩
    rw [enumKeysRev, List.mem_reverse]
    exact List.mem_dedup

theorem pyBatchF_nil {α : Type} (f n : Nat) : pyBatchF f ([] : List α) n = [] := by
  cases f <;> rfl

theorem pyBatchF_flatten {α : Type} :
    ∀ (f : Nat) (xs : List α) (n : Nat), 0 < n → xs.length ≤ f →
      (pyBatchF f xs n).flatten = xs := by
  intro f
  induction f with
  | zero =>
    intro xs n hn hl
    have hx : xs = [] := List.length_eq_zero.mp (Nat.le_zero.mp hl)
    subst hx
    rfl
  | succ f ih =>
    intro xs n hn hl
    cases xs with
    | nil => rfl
    | cons x t =>
      have heq : pyBatchF (f + 1) (x :: t) n = ((x :: t).take n) :: pyBatchF f ((x :: t).drop n) n := rfl
      rw [heq, List.flatten_cons, ih _ n hn ?_, List.take_append_drop]
      simp only [List.length_drop, List.length_cons]
      simp only [List.length_cons] at hl
      omega

theorem pyBatchF_mem {α : Type} :
    ∀ (f : Nat) (xs : List α) (n : Nat), 0 < n → xs.length ≤ f →
      ∀ c ∈ pyBatchF f xs n, c ≠ [] ∧ c.length ≤ n := by
  intro f
  induction f with
  | zero =>
    intro xs n hn hl
    have hx : xs = [] := List.length_eq_zero.mp (Nat.le_zero.mp hl)
    subst hx
    simp [pyBatchF]
  | succ f ih =>
    intro xs n hn hl
    cases xs with
    | nil => simp [pyBatchF]
    | cons x t =>
      have heq : pyBatchF (f + 1) (x :: t) n = ((x :: t).take n) :: pyBatchF f ((x :: t).drop n) n := rfl
      rw [heq]
      intro c hc
      rcases List.mem_cons.mp hc with hc1 | hc2
      · subst hc1
        constructor
        · intro hnil
          rcases List.take_eq_nil_iff.mp hnil with h0 | h0
          · omega
          · cases h0
        · rw [List.length_take]
          exact min_le_left _ _
      · refine ih _ n hn ?_ c hc2
        simp only [List.length_drop, List.length_cons]
        simp only [List.length_cons] at hl
        omega

theorem pyBatchF_dropLast {α : Type} :
    ∀ (f : Nat) (xs : List α) (n : Nat), 0 < n → xs.length ≤ f →
      ∀ c ∈ (pyBatchF f xs n).dropLast, c.length = n := by
  intro f
  induction f with
  | zero =>
    intro xs n hn hl
    have hx : xs = [] := List.length_eq_zero.mp (Nat.le_zero.mp hl)
    subst hx
    simp [pyBatchF]
  | succ f ih =>
    intro xs n hn hl
    cases xs with
    | nil => simp [pyBatchF]
    | cons x t =>
      have heq : pyBatchF (f + 1) (x :: t) n = ((x :: t).take n) :: pyBatchF f ((x :: t).drop n) n := rfl
      rw [heq]
      cases hrest : pyBatchF f ((x :: t).drop n) n with
      | nil => simp
      | cons r rs =>
        have hlen : n ≤ t.length + 1 := by
          by_contra hgt
          push_neg at hgt
          have hdrop : (x :: t).drop n = [] := by
            apply List.drop_eq_nil_of_le
            simp only [List.length_cons]
            omega
          rw [hdrop, pyBatchF_nil] at hrest
          cases hrest
        intro c hc
        rw [List.dropLast_cons₂] at hc
        rcases List.mem_cons.mp hc with hc1 | hc2
        · subst hc1
          rw [List.length_take]
          simp only [List.length_cons]
          omega
        · rw [← hrest] at hc2
          refine ih _ n hn ?_ c hc2
          simp only [List.length_drop, List.length_cons]
          simp only [List.length_cons] at hl
          omega

/-- Claim C8: for every sequence and positive chunk size `n` the chunker
yields chunks of size `n` except possibly the last, never empty and never
above `n`, concatenating to the original sequence; 5 items chunked by 2
give sizes [2,2,1] and by 3 give [3,2]. -/
theorem c8_batch_chunker :
    (∀ (α : Type) (xs : List α) (n : Nat), 0 < n →
      (pyBatch xs n).flatten = xs ∧
      (∀ c ∈ pyBatch xs n, c ≠ [] ∧ c.length ≤ n) ∧
      (∀ c ∈ (pyBatch xs n).dropLast, c.length = n)) ∧
    (pyBatch [1, 2, 3, 4, 5] 2).map List.length = [2, 2, 1] ∧
    (pyBatch [1, 2, 3, 4, 5] 3).map List.length = [3, 2] := by
  refine ⟨?_, by decide, by decide⟩
  intro α xs n hn
  exact ⟨pyBatchF_flatten xs.length xs n hn le_rfl,
         pyBatchF_mem xs.length xs n hn le_rfl,
         pyBatchF_dropLast xs.length xs n hn le_rfl⟩

/-- Witness for C8 at a concrete input. -/
theorem c8_witness : 0 < 2 ∧ (pyBatch ([1, 2, 3] : List Nat) 2).flatten = [1, 2, 3] :=
  ⟨by decide, (c8_batch_chunker.1 Nat [1, 2, 3] 2 (by decide)).1⟩

theorem bulk_insert_stmts_fst {table : String} {rows : List Row} :
    ∀ x ∈ bulk_insert_stmts table rows, x.1 = table := by
  intro x hx
  rw [bulk_insert_stmts] at hx
  split at hx
  · cases hx
  · simp only [List.mem_singleton] at hx
    rw [hx]

/-- Claim C1 (counterexample): with every draft list non-empty, the batch
writer's statement sequence is exactly the fixed source order, in which
the `tweets` statement comes after `tweet_mentions` — not before the
dependent composite-key relations as the claim states. -/
theorem c1_writer_order_counterexample :
    c1Batch.map Prod.fst = step2TableOrder ∧
    ¬ ((c1Batch.map Prod.fst).indexOf "tweets" <
        (c1Batch.map Prod.fst).indexOf "tweet_mentions") := by
  constructor
  · decide
  · decide

/-- Claim C1 (amended): the batch writer executes its statements in a
fixed relation order, but with the Post insert last: every `users`
statement (hydrated and both stub kinds) precedes everything else, the
dependent composite-key statements (`tweet_mentions`, `tweet_tags`,
`tweet_media`, `tweet_urls`) come next, and the `tweets` statement is the
final one; empty draft lists contribute no statement. -/
theorem c1_writer_order_amended :
    ∀ (u1 u2 u3 m tg md ur tw : List Row), ∃ p q : List (String × List Row),
      step2Statements u1 u2 u3 m tg md ur tw = p ++ q ∧
      (∀ x ∈ p, x.1 = "users") ∧
      (∀ x ∈ q.dropLast, x.1 = "tweet_mentions" ∨ x.1 = "tweet_tags" ∨
        x.1 = "tweet_media" ∨ x.1 = "tweet_urls") ∧
      q.getLast? = some ("tweets", tw) := by
  intro u1 u2 u3 m tg md ur tw
  refine ⟨bulk_insert_stmts "users" u1 ++ bulk_insert_stmts "users" u2
      ++ bulk_insert_stmts "users" u3,
    bulk_insert_stmts "tweet_mentions" m ++ bulk_insert_stmts "tweet_tags" tg
      ++ bulk_insert_stmts "tweet_media" md ++ bulk_insert_stmts "tweet_urls" ur
      ++ [("tweets", tw)], ?_, ?_, ?_, ?_⟩
  · simp [step2Statements, List.append_assoc]
  · intro x hx
    simp only [List.mem_append] at hx
    rcases hx with (h | h) | h <;> exact bulk_insert_stmts_fst x h
  · intro x hx
    rw [List.dropLast_concat] at hx
    simp only [List.mem_append] at hx
    rcases hx with ((h | h) | h) | h
    · exact Or.inl (bulk_insert_stmts_fst x h)
    · exact Or.inr (Or.inl (bulk_insert_stmts_fst x h))
    · exact Or.inr (Or.inr (Or.inl (bulk_insert_stmts_fst x h)))
    · exact Or.inr (Or.inr (Or.inr (bulk_insert_stmts_fst x h)))
  · exact List.getLast?_concat _

theorem any_singleton_key (rel : List Row) (row : Row) :
    rel.any (fun r => decide (["id_users"].map (rowGet r) = ["id_users"].map (rowGet row)))
      = rel.any (fun r => decide (rowGet r "id_users" = rowGet row "id_users")) := by
  congr 1
  funext r
  rw [decide_eq_decide]
  simp

/-- Claim C5: Author inserts are first-write-wins: an insert whose id is
already present leaves the relation untouched, and folding any sequence
of inserts over the relation makes the row found for an id the previously
stored one when present, else the first row of the sequence carrying that
id. -/
theorem c5_first_write_wins :
    (∀ (rel : List Row) (row : Row),
        rel.any (fun r => decide (rowGet r "id_users" = rowGet row "id_users")) = true →
        insertIfAbsent ["id_users"] rel row = rel) ∧
    (∀ (rows rel : List Row) (i : Option JValue),
        (List.foldl (insertIfAbsent ["id_users"]) rel rows).find?
            (fun r => decide (rowGet r "id_users" = i)) =
          ((rel.find? (fun r => decide (rowGet r "id_users" = i))).or
            (rows.find? (fun r => decide (rowGet r "id_users" = i))))) := by
  constructor
  · intro rel row h
    rw [insertIfAbsent, if_pos]
    rw [any_singleton_key]
    exact h
  · intro rows
    induction rows with
    | nil =>
      intro rel i
      simp
    | cons row rs ih =>
      intro rel i
      rw [List.foldl_cons]
      by_cases hmem : ∃ x ∈ rel, rowGet x "id_users" = rowGet row "id_users"
      · have hins : insertIfAbsent ["id_users"] rel row = rel := by
          rw [insertIfAbsent, if_pos]
          simp only [List.any_eq_true, decide_eq_true_eq, List.map_cons, List.map_nil,
            List.cons.injEq, and_true]
          exact hmem
        rw [hins, ih rel i]
        by_cases hrow : rowGet row "id_users" = i
        · have hsome : (rel.find? (fun r => decide (rowGet r "id_users" = i))).isSome := by
            rw [List.find?_isSome]
            obtain ⟨x, hx, he⟩ := hmem
            exact ⟨x, hx, by simp [he, hrow]⟩
          obtain ⟨v, hv⟩ := Option.isSome_iff_exists.mp hsome
          rw [hv]
          rfl
        · rw [List.find?_cons_of_neg]
          simp [hrow]
      · have hins : insertIfAbsent ["id_users"] rel row = rel ++ [row] := by
          rw [insertIfAbsent, if_neg]
          simp only [List.any_eq_true, decide_eq_true_eq, List.map_cons, List.map_nil,
            List.cons.injEq, and_true]
          exact hmem
        rw [hins, ih (rel ++ [row]) i, List.find?_append]
        by_cases hrow : rowGet row "id_users" = i
        · have hpos : decide (rowGet row "id_users" = i) = true := by
            simp [hrow]
          cases hfr : rel.find? (fun r => decide (rowGet r "id_users" = i)) with
          | some v => rfl
          | none =>
            rw [Option.none_or, Option.none_or, List.find?_cons, List.find?_cons, hpos]
            rfl
        · have hneg : decide (rowGet row "id_users" = i) = false := by
            simp [hrow]
          rw [List.find?_cons, List.find?_cons, hneg, List.find?_nil, Option.or_none]

/-- Witness for C5: a stub insert for an id already covered by a hydrated
row leaves the relation unchanged. -/
theorem c5_witness :
    ([[("id_users", JValue.num "7"), ("name", JValue.str "hydrated")]].any
        (fun r => decide (rowGet r "id_users" =
          rowGet [("id_users", JValue.num "7")] "id_users")) = true) ∧
    insertIfAbsent ["id_users"]
        [[("id_users", JValue.num "7"), ("name", JValue.str "hydrated")]]
        [("id_users", JValue.num "7")] =
      [[("id_users", JValue.num "7"), ("name", JValue.str "hydrated")]] :=
  ⟨by decide, c5_first_write_wins.1 _ _ (by decide)⟩

theorem ok_bind {ε α β : Type} (a : α) (f : α → Except ε β) :
    (Except.ok a : Except ε α) >>= f = f a := rfl

/-- Claim C4: re-ingesting a record whose Post id is already stored is a
no-op — the duplicate check returns before any insert, so every relation
is left unchanged whatever the rest of the record contains. -/
theorem c4_reingest_noop (db : DB) (t : JValue) (i : JValue)
    (h1 : getItem t "id" = .ok i)
    (h2 : db.tweets.any (fun r => decide (rowGet r "id_tweets" = some i)) = true) :
    insert_tweet db t = .ok db := by
  rw [insert_tweet, h1, ok_bind, if_pos h2]

/-- Witness for C4: a database already holding Post id 5 is unchanged by
re-ingesting a record with id 5. -/
theorem c4_witness :
    insert_tweet ⟨[], [], [[("id_tweets", JValue.num "5")]], [], [], [], []⟩
        (jobj [("id", JValue.num "5")]) =
      .ok ⟨[], [], [[("id_tweets", JValue.num "5")]], [], [], [], []⟩ :=
  c4_reingest_noop _ _ (JValue.num "5") (by decide) (by decide)

theorem pySplitL_ne_nil (sep : Char) (l : List Char) : pySplitL sep l ≠ [] := by
  cases l with
  | nil => simp [pySplitL]
  | cons c cs =>
    rw [pySplitL]
    by_cases hc : c = sep
    · rw [if_pos hc]
      simp
    · rw [if_neg hc]
      cases pySplitL sep cs <;> simp

theorem pySplitL_of_not_mem (l : List Char) (h : ',' ∉ l) : pySplitL ',' l = [l] := by
  induction l with
  | nil => rfl
  | cons c cs ih =>
    simp only [List.mem_cons, not_or] at h
    rw [pySplitL, if_neg (fun hh => h.1 hh.symm), ih h.2]

theorem two_le_length_pySplitL (l : List Char) (h : ',' ∈ l) :
    2 ≤ (pySplitL ',' l).length := by
  induction l with
  | nil => cases h
  | cons c cs ih =>
    rw [pySplitL]
    by_cases hc : c = ','
    · rw [if_pos hc]
      have hpos : 0 < (pySplitL ',' cs).length :=
        List.length_pos.mpr (pySplitL_ne_nil ',' cs)
      simp only [List.length_cons]
      omega
    · rw [if_neg hc]
      have hmem : ',' ∈ cs := by
        rcases List.mem_cons.mp h with h1 | h2
        · exact absurd h1.symm hc
        · exact h2
      cases hs : pySplitL ',' cs with
      | nil => exact absurd hs (pySplitL_ne_nil ',' cs)
      | cons g gs =>
        have h2 := ih hmem
        rw [hs] at h2
        simp only [List.length_cons] at h2 ⊢
        omega

theorem takeWhile_append_of_mem (p : Char → Bool) (a b : List Char) (x : Char)
    (hx : x ∈ a) (hpx : p x = false) : (a ++ b).takeWhile p = a.takeWhile p := by
  induction a with
  | nil => cases hx
  | cons c cs ih =>
    cases hp : p c with
    | false => simp [List.takeWhile_cons, hp]
    | true =>
      have hxc : x ∈ cs := by
        rcases List.mem_cons.mp hx with h1 | h2
        · subst h1
          rw [hp] at hpx
          cases hpx
        · exact h2
      simp [List.takeWhile_cons, hp, ih hxc]

theorem takeWhile_append_all (p : Char → Bool) (a b : List Char)
    (h : ∀ x ∈ a, p x = true) : (a ++ b).takeWhile p = a ++ b.takeWhile p := by
  induction a with
  | nil => rfl
  | cons c cs ih =>
    have hc := h c (List.mem_cons_self c cs)
    simp [List.takeWhile_cons, hc, ih (fun x hx => h x (List.mem_cons_of_mem c hx))]

theorem takeWhile_all (p : Char → Bool) (l : List Char)
    (h : ∀ x ∈ l, p x = true) : l.takeWhile p = l := by
  have := takeWhile_append_all p l [] h
  simpa using this

theorem afterLastComma_comma_free (l : List Char) (h : ',' ∉ l) : afterLastComma l = l := by
  rw [afterLastComma, takeWhile_all, List.reverse_reverse]
  intro x hx
  rw [List.mem_reverse] at hx
  simp only [decide_eq_true_eq]
  intro heq
  exact h (heq ▸ hx)

theorem afterLastComma_cons_of_mem (c : Char) (cs : List Char) (h : ',' ∈ cs) :
    afterLastComma (c :: cs) = afterLastComma cs := by
  rw [afterLastComma, afterLastComma, List.reverse_cons]
  rw [takeWhile_append_of_mem _ _ _ ',' (List.mem_reverse.mpr h) (by simp)]

theorem afterLastComma_comma_head (cs : List Char) :
    afterLastComma (',' :: cs) = afterLastComma cs := by
  by_cases h : ',' ∈ cs
  · exact afterLastComma_cons_of_mem ',' cs h
  · rw [afterLastComma_comma_free cs h]
    rw [afterLastComma, List.reverse_cons]
    rw [takeWhile_append_all]
    · simp
    · intro x hx
      rw [List.mem_reverse] at hx
      simp only [decide_eq_true_eq]
      intro heq
      exact h (heq ▸ hx)

theorem pySplitL_getLast (l : List Char) :
    (pySplitL ',' l).getLast? = some (afterLastComma l) := by
  induction l with
  | nil => rfl
  | cons c cs ih =>
    by_cases hc : c = ','
    · subst hc
      rw [pySplitL, if_pos rfl]
      cases hs : pySplitL ',' cs with
      | nil => exact absurd hs (pySplitL_ne_nil ',' cs)
      | cons g gs =>
        rw [List.getLast?_cons_cons, ← hs, ih, afterLastComma_comma_head]
    · rw [pySplitL, if_neg hc]
      cases hs : pySplitL ',' cs with
      | nil => exact absurd hs (pySplitL_ne_nil ',' cs)
      | cons g gs =>
        cases gs with
        | nil =>
          have hnm : ',' ∉ cs := by
            intro hmem
            have h2 := two_le_length_pySplitL cs hmem
            rw [hs] at h2
            simp at h2
          have hg : g = cs := by
            have hsingle := pySplitL_of_not_mem cs hnm
            rw [hs] at hsingle
            simpa using hsingle
          rw [hg, afterLastComma_comma_free (c :: cs) ?_]
          · rfl
          · simp only [List.mem_cons, not_or]
            exact ⟨fun hh => hc hh.symm, hnm⟩
        | cons g2 gs2 =>
          have hx : (pySplitL ',' cs).getLast? = (g2 :: gs2).getLast? := by
            rw [hs, List.getLast?_cons_cons]
          rw [List.getLast?_cons_cons, ← hx, ih]
          have hmem : ',' ∈ cs := by
            by_contra hnm
            rw [pySplitL_of_not_mem cs hnm] at hs
            simp at hs
          rw [afterLastComma_cons_of_mem c cs hmem]

theorem stateCodeCore_eq_spec (s : String) : stateCodeCore s = specStateCode s := by
  rw [stateCodeCore, specStateCode]
  have h2 : (pySplitL ',' s.data).getLastD [] = afterLastComma s.data := by
    rw [List.getLastD_eq_getLast?, pySplitL_getLast]
    rfl
  rw [h2]

/-- Claim C9: the country code is the lower-cased place country code when
the place carries one and null when the place is null; the state code is
derived only when the country code equals `us`, and then equals the text
after the last comma of the place's full name, trimmed and lower-cased,
treated as absent when longer than two characters. -/
theorem c9_place_fields :
    (∀ t p s, getItem t "place" = .ok p → getItem p "country_code" = .ok (.str s) →
        countryCodeOf t = .ok (some (pyLowerS s))) ∧
    (∀ t, getItem t "place" = .ok .null → countryCodeOf t = .ok none) ∧
    (∀ t cc, cc ≠ some "us" → stateCodeOf t cc = .ok none) ∧
    (∀ t p s, getItem t "place" = .ok p → getItem p "full_name" = .ok (.str s) →
        stateCodeOf t (some "us") = .ok (specStateCode s)) ∧
    (∀ s, stateCodeCore s = specStateCode s) := by
  refine ⟨?_, ?_, ?_, ?_, stateCodeCore_eq_spec⟩
  · intro t p s h1 h2
    rw [countryCodeOf, h1, ok_bind, h2, ok_bind]
  · intro t h1
    rw [countryCodeOf, h1, ok_bind]
    rfl
  · intro t cc hcc
    rw [stateCodeOf, if_neg hcc]
  · intro t p s h1 h2
    rw [stateCodeOf, if_pos rfl, h1, ok_bind, h2, ok_bind]
    exact congrArg Except.ok (stateCodeCore_eq_spec s)

/-- Witness for C9: the place "Austin, TX" with country code "US" yields
country code `us` and state code `tx`. -/
theorem c9_witness :
    countryCodeOf (jobj [("place", jobj [("country_code", JValue.str "US"),
        ("full_name", JValue.str "Austin, TX")])]) = .ok (some "us") ∧
    stateCodeOf (jobj [("place", jobj [("country_code", JValue.str "US"),
        ("full_name", JValue.str "Austin, TX")])]) (some "us") = .ok (some "tx") := by
  constructor
  · have h := c9_place_fields.1
      (jobj [("place", jobj [("country_code", JValue.str "US"),
        ("full_name", JValue.str "Austin, TX")])])
      (jobj [("country_code", JValue.str "US"), ("full_name", JValue.str "Austin, TX")])
      "US" (by decide) (by decide)
    rw [h]
    decide
  · have h := c9_place_fields.2.2.2.1
      (jobj [("place", jobj [("country_code", JValue.str "US"),
        ("full_name", JValue.str "Austin, TX")])])
      (jobj [("country_code", JValue.str "US"), ("full_name", JValue.str "Austin, TX")])
      "Austin, TX" (by decide) (by decide)
    rw [h]
    decide

theorem elemsOf_jarr (l : List JValue) : elemsOf (jarr l) = l := by
  induction l with
  | nil => rfl
  | cons x t ih =>
    rw [jarr, List.foldr_cons]
    rw [elemsOf]
    rw [show List.foldr JValue.acons JValue.anil t = jarr t from rfl, ih]

theorem pyIter_jarr (l : List JValue) : pyIter (jarr l) = .ok l := by
  cases l with
  | nil => rfl
  | cons x t =>
    rw [jarr, List.foldr_cons]
    rw [show JValue.acons x (List.foldr JValue.acons JValue.anil t) =
      JValue.acons x (jarr t) from rfl]
    rw [pyIter, elemsOf_jarr]

theorem pyJoin_cons_cons (s x y : String) (t : List String) :
    pyJoin s (x :: y :: t) = x ++ s ++ pyJoin s (y :: t) := rfl

theorem getIdx_acons_zero (h t : JValue) : getIdx (JValue.acons h t) 0 = .ok h := by
  simp [getIdx, elemsOf]

theorem getIdx_acons_one (h h2 t : JValue) :
    getIdx (JValue.acons h (JValue.acons h2 t)) 1 = .ok h2 := by
  simp [getIdx, elemsOf]

theorem join_comma (pts : List (String × String)) (x : String) :
    strConcat (pts.map (fun p => p.1 ++ " " ++ p.2 ++ ",")) ++ x =
      pyJoin "," (pts.map (fun p => p.1 ++ " " ++ p.2) ++ [x]) := by
  induction pts with
  | nil => simp [strConcat, pyJoin, String.empty_append]
  | cons a t ih =>
    cases t with
    | nil => simp [strConcat, pyJoin, String.append_assoc, String.append_empty]
    | cons b t2 =>
      have hstep : strConcat (List.map (fun p => p.1 ++ " " ++ p.2 ++ ",") (a :: b :: t2)) =
          (a.1 ++ " " ++ a.2 ++ ",") ++
            strConcat (List.map (fun p => p.1 ++ " " ++ p.2 ++ ",") (b :: t2)) := rfl
      rw [hstep, String.append_assoc, ih]
      simp only [List.map_cons, List.cons_append]
      rw [pyJoin_cons_cons]

theorem mapME_pairs (pts : List (String × String)) :
    mapME (fun p => do
        let a ← getIdx p 0
        let b ← getIdx p 1
        .ok (pyStr a ++ " " ++ pyStr b ++ ","))
      (pts.map (fun p => jarr [.num p.1, .num p.2])) =
    .ok (pts.map (fun p => p.1 ++ " " ++ p.2 ++ ",")) := by
  induction pts with
  | nil => rfl
  | cons q qs ih =>
    rw [List.map_cons, mapME, ih]
    rfl

theorem ringEncode_pairs (p0 : String × String) (rest : List (String × String)) :
    ringEncode (jarr ((p0 :: rest).map (fun p => jarr [.num p.1, .num p.2]))) =
      .ok (specRing (p0 :: rest)) := by
  rw [ringEncode, pyIter_jarr, ok_bind, mapME_pairs, ok_bind]
  have hidx : getIdx (jarr ((p0 :: rest).map (fun p => jarr [.num p.1, .num p.2]))) 0 =
      .ok (jarr [.num p0.1, .num p0.2]) := by
    rw [show jarr ((p0 :: rest).map (fun p => jarr [.num p.1, .num p.2])) =
      JValue.acons (jarr [.num p0.1, .num p0.2])
        (jarr (rest.map (fun p => jarr [.num p.1, .num p.2]))) from rfl]
    exact getIdx_acons_zero _ _
  rw [hidx, ok_bind]
  rw [show jarr [JValue.num p0.1, JValue.num p0.2] =
    JValue.acons (JValue.num p0.1) (JValue.acons (JValue.num p0.2) JValue.anil) from rfl]
  rw [getIdx_acons_zero, ok_bind, getIdx_acons_one, ok_bind]
  rw [specRing]
  rw [show (p0 :: rest).headD ("", "") = p0 from rfl]
  exact congrArg (fun s => Except.ok ("(" ++ s ++ ")"))
    (join_comma (p0 :: rest) (p0.1 ++ " " ++ p0.2))

/-- Claim C3 (counterexample): a record whose geometry is null, with no
place, and which indicates geolocation is disabled (`geo_enabled` false)
does not yield null geometry — the extraction leaves the geometry
variables unassigned and raises an unbound-local error. -/
theorem c3_geometry_counterexample :
    geoExtract (jobj [("geo", JValue.null),
        ("user", jobj [("geo_enabled", JValue.bool false)])]) = .error .unboundLocal ∧
    ¬ geoExtract (jobj [("geo", JValue.null),
        ("user", jobj [("geo_enabled", JValue.bool false)])]) = .ok (none, none) := by
  constructor
  · decide
  · decide

/-- Claim C3 (amended): a present point coordinate pair yields POINT with
the two coordinates space-separated in given order; a ring of a place
bounding polygon is encoded with its points in original order followed by
a repeated closing point equal to the first (single-ring example included,
wrapped as a MULTIPOLYGON); when both the point and polygon lookups fail
with a missing-key error, geometry is null without error only if the
record indicates geolocation is ENABLED; when geolocation is disabled the
geometry variables stay unassigned and an unbound-local error is raised;
and a record whose place is null raises a type error instead of yielding
null geometry. -/
theorem c3_geometry_amended :
    (∀ t g c x y, getItem t "geo" = .ok g → getItem g "coordinates" = .ok c →
        getIdx c 0 = .ok x → getIdx c 1 = .ok y →
        geoExtract t = .ok (some "POINT", some (pyStr x ++ " " ++ pyStr y))) ∧
    (∀ (p0 : String × String) (rest : List (String × String)),
        ringEncode (jarr ((p0 :: rest).map (fun p => jarr [.num p.1, .num p.2]))) =
          .ok (specRing (p0 :: rest))) ∧
    (geoExtract (jobj [("geo", JValue.null),
        ("place", jobj [("bounding_box", jobj [("coordinates",
          jarr [jarr [jarr [.num "0", .num "0"], jarr [.num "1", .num "0"],
            jarr [.num "1", .num "1"]]])])])]) =
      .ok (some "MULTIPOLYGON", some "((0 0,1 0,1 1,0 0))")) ∧
    (geomFromText (some "MULTIPOLYGON", some "((0 0,1 0,1 1,0 0))") =
      some "MULTIPOLYGON(((0 0,1 0,1 1,0 0)))") ∧
    (∀ t u ge, tryPoint t = .error .typeError → tryPolygon t = .error .keyError →
        getItem t "user" = .ok u → getItem u "geo_enabled" = .ok ge → truthy ge = true →
        geoExtract t = .ok (none, none)) ∧
    (∀ t u ge, tryPoint t = .error .typeError → tryPolygon t = .error .keyError →
        getItem t "user" = .ok u → getItem u "geo_enabled" = .ok ge → truthy ge = false →
        geoExtract t = .error .unboundLocal) ∧
    (∀ t, tryPoint t = .error .typeError → getItem t "place" = .ok .null →
        geoExtract t = .error .typeError) := by
  refine ⟨?_, ringEncode_pairs, by decide, by decide, ?_, ?_, ?_⟩
  · intro t g c x y h1 h2 h3 h4
    have hp : tryPoint t = .ok ("POINT", pyStr x ++ " " ++ pyStr y) := by
      rw [tryPoint, h1, ok_bind, h2, ok_bind, h3, ok_bind, h4, ok_bind]
    simp [geoExtract, hp]
  · intro t u ge h1 h2 h3 h4 h5
    simp [geoExtract, h1, h2, h3, h4, h5]
  · intro t u ge h1 h2 h3 h4 h5
    simp [geoExtract, h1, h2, h3, h4, h5]
  · intro t h1 h2
    have hpoly : tryPolygon t = .error .typeError := by
      rw [tryPolygon, h2, ok_bind]
      rfl
    simp [geoExtract, h1, hpoly]

/-- Witness for C3 at concrete records: a point record, a ring of two
points, a geolocation-enabled record with no place, a geolocation-disabled
record (zero is falsy) and a null-place record. -/
theorem c3_witness :
    geoExtract (jobj [("geo", jobj [("coordinates",
        jarr [JValue.num "10.0", JValue.num "20.0"])])]) =
      .ok (some "POINT", some "10.0 20.0") ∧
    ringEncode (jarr [jarr [JValue.num "0", JValue.num "0"],
        jarr [JValue.num "1", JValue.num "0"]]) = .ok "(0 0,1 0,0 0)" ∧
    geoExtract (jobj [("geo", JValue.null),
        ("user", jobj [("geo_enabled", JValue.bool true)])]) = .ok (none, none) ∧
    geoExtract (jobj [("geo", JValue.null),
        ("user", jobj [("geo_enabled", JValue.num "0")])]) = .error .unboundLocal ∧
    geoExtract (jobj [("geo", JValue.null), ("place", JValue.null)]) = .error .typeError := by
  refine ⟨?_, ?_, ?_, ?_, ?_⟩
  · have h := c3_geometry_amended.1
      (jobj [("geo", jobj [("coordinates", jarr [JValue.num "10.0", JValue.num "20.0"])])])
      (jobj [("coordinates", jarr [JValue.num "10.0", JValue.num "20.0"])])
      (jarr [JValue.num "10.0", JValue.num "20.0"])
      (JValue.num "10.0") (JValue.num "20.0") (by decide) (by decide) (by decide) (by decide)
    rw [h]
    decide
  · have h := c3_geometry_amended.2.1 ("0", "0") [("1", "0")]
    have h2 : jarr (([(("0" : String), ("0" : String)), (("1" : String), ("0" : String))]).map
        (fun p => jarr [JValue.num p.1, JValue.num p.2])) =
      jarr [jarr [JValue.num "0", JValue.num "0"], jarr [JValue.num "1", JValue.num "0"]] := by
      decide
    rw [h2] at h
    rw [h]
    decide
  · exact c3_geometry_amended.2.2.2.2.1
      (jobj [("geo", JValue.null), ("user", jobj [("geo_enabled", JValue.bool true)])])
      (jobj [("geo_enabled", JValue.bool true)]) (JValue.bool true)
      (by decide) (by decide) (by decide) (by decide) (by decide)
  · exact c3_geometry_amended.2.2.2.2.2.1
      (jobj [("geo", JValue.null), ("user", jobj [("geo_enabled", JValue.num "0")])])
      (jobj [("geo_enabled", JValue.num "0")]) (JValue.num "0")
      (by decide) (by decide) (by decide) (by decide) (by decide)
  · exact c3_geometry_amended.2.2.2.2.2.2
      (jobj [("geo", JValue.null), ("place", JValue.null)]) (by decide) (by decide)

end TwitterPG
